import Mathlib

/-!
# ghpp: field selection, rendering and relative-time formatting

A shallow embedding of `main.go` of `KiranCNayak/ghpp`:

* the argument validation of `main` (main.go 61-74), as `mainRequest`;
* `buildFieldList` (main.go 100-122): defaults + include - exclude over a Go
  `map[string]bool`;
* `printRepoInfo` (main.go 126-165): one coloured line per field;
* `humanTimeDiff`, `plural`, `humanTimeDiffShort` (main.go 168-240): the
  calendar-field subtraction with a fixed 30 day borrow.

Modelling conventions.

* Go strings are modelled by Lean `String` (sequences of Unicode scalar
  values).  The separators used by the program (`,` and `/`) are single ASCII
  bytes, which never occur inside a multi-byte UTF-8 sequence, so splitting on
  characters agrees with Go's splitting on bytes for every valid UTF-8 input.
* Go `int` is modelled by `Int`.  The only arithmetic is a difference of two
  calendar fields followed by `+ 30`, `+ 12` or `- 1`, which cannot leave the
  64 bit range for values produced by `time.Time`.
* `time.Now()` is an explicit argument `now`; `Time.Format(time.RFC3339)` is an
  explicit argument `format`; the iteration order of `range` over a map is an
  explicit argument `range`.
* Writing to standard output is modelled by returning the list of print
  calls, one `Line` per call of a `color.*` print function; `writtenLines`
  gives the lines of text these calls put on standard output.
-/

namespace Ghpp

/-! ## Standard-library strings -/

/-- Go `unicode.IsSpace`: the Latin-1 white space characters
`'\t' '\n' '\v' '\f' '\r' ' ' U+0085 U+00A0` and the characters with the
Unicode White_Space property above Latin-1. -/
def isSpace (c : Char) : Bool :=
  let n := c.toNat
  (9 ≤ n && n ≤ 13) || n == 32 || n == 0x85 || n == 0xA0 || n == 0x1680 ||
  (0x2000 ≤ n && n ≤ 0x200A) || n == 0x2028 || n == 0x2029 || n == 0x202F ||
  n == 0x205F || n == 0x3000

/-- Go `strings.TrimSpace` on the character sequence: leading and trailing
white space removed. -/
def trimSpaceChars (cs : List Char) : List Char :=
  ((cs.dropWhile isSpace).reverse.dropWhile isSpace).reverse

/-- Go `strings.TrimSpace`. -/
def TrimSpace (s : String) : String :=
  String.mk (trimSpaceChars s.data)

/-- Go `strings.Split(s, sep)` for a one-character separator, on the character
sequence: the pieces between consecutive separators; a sequence without a
separator (the empty one included) is the only piece. -/
def splitChars (sep : Char) : List Char → List (List Char)
  | [] => [[]]
  | c :: cs =>
    if c = sep then [] :: splitChars sep cs
    else
      match splitChars sep cs with
      | [] => [[c]]
      | piece :: pieces => (c :: piece) :: pieces

/-- Go `strings.Split(s, sep)` with a separator of one character (the program
only calls it with `","` and `"/"`). -/
def Split (s : String) (sep : Char) : List String :=
  (splitChars sep s.data).map String.mk

/-- Go `strings.Join(parts, sep)`. -/
def Join : List String → String → String
  | [], _ => ""
  | [p], _ => p
  | p :: q :: ps, sep => p ++ sep ++ Join (q :: ps) sep

/-- Go `fmt.Sprintf("%d", n)` for an `int`. -/
def fmtInt (n : Int) : String :=
  match n with
  | Int.ofNat m => Nat.repr m
  | Int.negSucc m => "-" ++ Nat.repr (m + 1)

/-! ## Go maps -/

/-- A Go `map[string]bool`: the key/value pairs, each key at most once. -/
abbrev GoMap := List (String × Bool)

/-- Go `make(map[string]bool)`. -/
def GoMap.empty : GoMap := []

/-- The keys present in the map. -/
def GoMap.keys (m : GoMap) : List String :=
  m.map Prod.fst

/-- Go `m[k] = v`: overwrite the value when the key is present, add the pair
otherwise. -/
def GoMap.set (m : GoMap) (k : String) (v : Bool) : GoMap :=
  if k ∈ m.keys then m.map (fun p => if p.1 = k then (k, v) else p)
  else m ++ [(k, v)]

/-- Go `delete(m, k)`: a no-op when the key is absent. -/
def GoMap.delete (m : GoMap) (k : String) : GoMap :=
  m.filter (fun p => decide (p.1 ≠ k))

/-- A `range` over a map visits every key exactly once, in an order the
language leaves unspecified: an admissible iteration order lists a
permutation of the keys. -/
def IsRangeOrder (range : GoMap → List String) : Prop :=
  ∀ m : GoMap, (range m).Perm m.keys

/-! ## Field logic (main.go 42-49, 100-122) -/

/-- The variable `defaultFields` (main.go 42-49). -/
def defaultFields : List String :=
  ["name", "full_name", "html_url", "created_at", "updated_at", "stargazers_count"]

/-- The function `buildFieldList` (main.go 100-122).  `range` is the order in
which the final loop visits the keys of `fieldSet`; `incl` and `excl` are the
parameters `include` and `exclude`. -/
def buildFieldList (range : GoMap → List String)
    (defaults : List String) (incl excl : String) : List String :=
  let fieldSet : GoMap := GoMap.empty
  let fieldSet := defaults.foldl (fun m f => m.set f true) fieldSet
  let fieldSet :=
    if incl ≠ "" then
      (Split incl ',').foldl (fun m f => m.set (TrimSpace f) true) fieldSet
    else fieldSet
  let fieldSet :=
    if excl ≠ "" then
      (Split excl ',').foldl (fun m f => m.delete (TrimSpace f)) fieldSet
    else fieldSet
  (range fieldSet).foldl (fun result f => result ++ [f]) []

/-- The white-space-trimmed comma-separated tokens of a flag value, as both
loops of `buildFieldList` compute them. -/
def tokens (s : String) : List String :=
  (Split s ',').map TrimSpace

/-- The map `fieldSet` of `buildFieldList` just before the final loop. -/
def fieldSetOf (defaults : List String) (incl excl : String) : GoMap :=
  let fieldSet := defaults.foldl (fun m f => m.set f true) GoMap.empty
  let fieldSet :=
    if incl ≠ "" then
      (Split incl ',').foldl (fun m f => m.set (TrimSpace f) true) fieldSet
    else fieldSet
  if excl ≠ "" then
    (Split excl ',').foldl (fun m f => m.delete (TrimSpace f)) fieldSet
  else fieldSet

/-! ## Records (main.go 18-38) -/

/-- The calendar fields of a Go `time.Time`, as returned by its methods
`Year()`, `Month()`, `Day()`, and the clock fields that only `Format` reads. -/
structure Time where
  Year : Int
  Month : Int
  Day : Int
  Hour : Int
  Minute : Int
  Second : Int
  ZoneOffset : Int
  deriving DecidableEq, Repr

/-- The struct `Owner` (main.go 18-20). -/
structure Owner where
  Login : String
  deriving DecidableEq, Repr

/-- The struct `License` (main.go 22-24). -/
structure License where
  Name : String
  deriving DecidableEq, Repr

/-- The struct `Repo` (main.go 26-38); the pointer `*License` is an `Option`,
`nil` being `none`. -/
structure Repo where
  Name : String
  FullName : String
  HTMLURL : String
  CreatedAt : Time
  UpdatedAt : Time
  StargazersCount : Int
  Forks : Int
  Watchers : Int
  Size : Int
  Owner : Owner
  License : Option License
  deriving DecidableEq, Repr

/-! ## Time difference (main.go 168-240) -/

/-- The function `plural` (main.go 201-206). -/
def plural (n : Int) : String :=
  if n = 1 then "" else "s"

/-- The values of `years`, `months`, `days` in `humanTimeDiff` after the two
borrow steps (main.go 169-181). -/
def humanTimeDiffParts (now t : Time) : Int × Int × Int :=
  let years := now.Year - t.Year
  let months := now.Month - t.Month
  let days := now.Day - t.Day
  let md : Int × Int := if days < 0 then (months - 1, days + 30) else (months, days)
  let ym : Int × Int := if md.1 < 0 then (years - 1, md.1 + 12) else (years, md.1)
  (ym.1, ym.2, md.2)

/-- The function `humanTimeDiff` (main.go 168-199), with `time.Now()` as the
argument `now`. -/
def humanTimeDiff (now t : Time) : String :=
  let years := (humanTimeDiffParts now t).1
  let months := (humanTimeDiffParts now t).2.1
  let days := (humanTimeDiffParts now t).2.2
  let parts : List String := []
  let parts := if years > 0 then parts ++ [fmtInt years ++ " year" ++ plural years] else parts
  let parts := if months > 0 then parts ++ [fmtInt months ++ " month" ++ plural months] else parts
  let parts := if days > 0 then parts ++ [fmtInt days ++ " day" ++ plural days] else parts
  if parts.length = 0 then "today"
  else Join parts " " ++ " ago"

/-- The values of `years`, `months`, `days` in `humanTimeDiffShort` after the
two borrow steps (main.go 210-222). -/
def humanTimeDiffShortParts (now t : Time) : Int × Int × Int :=
  let years := now.Year - t.Year
  let months := now.Month - t.Month
  let days := now.Day - t.Day
  let md : Int × Int := if days < 0 then (months - 1, days + 30) else (months, days)
  let ym : Int × Int := if md.1 < 0 then (years - 1, md.1 + 12) else (years, md.1)
  (ym.1, ym.2, md.2)

/-- The function `humanTimeDiffShort` (main.go 209-240), with `time.Now()` as
the argument `now`. -/
def humanTimeDiffShort (now t : Time) : String :=
  let years := (humanTimeDiffShortParts now t).1
  let months := (humanTimeDiffShortParts now t).2.1
  let days := (humanTimeDiffShortParts now t).2.2
  let parts : List String := []
  let parts := if years > 0 then parts ++ [fmtInt years ++ "y"] else parts
  let parts := if months > 0 then parts ++ [fmtInt months ++ "m"] else parts
  let parts := if days > 0 then parts ++ [fmtInt days ++ "d"] else parts
  if parts.length = 0 then "today"
  else Join parts " " ++ " ago"

/-! ## Pretty printing (main.go 126-165) -/

/-- The colours of the `color.*` print functions the program calls. -/
inductive Color where
  | cyan | blue | green | yellow | magenta | red
  deriving DecidableEq, Repr

/-- One call of a `color.*` print function: the colour and the expanded format
string, which the library writes followed by a newline. -/
structure Line where
  color : Color
  text : String
  deriving DecidableEq, Repr

/-- The body of the loop of `printRepoInfo` (main.go 128-163): the `switch` on
one field id; the lines it prints. -/
def printField (format : Time → String) (now : Time) (repo : Repo)
    (field : String) (since short : Bool) : List Line :=
  if field = "name" then [⟨Color.cyan, "📦 Name: " ++ repo.Name⟩]
  else if field = "full_name" then [⟨Color.cyan, "📛 Full Name: " ++ repo.FullName⟩]
  else if field = "html_url" then [⟨Color.blue, "🌐 URL: " ++ repo.HTMLURL⟩]
  else if field = "created_at" then
    if since then
      if short then [⟨Color.green, "📅 Created: " ++ humanTimeDiffShort now repo.CreatedAt⟩]
      else [⟨Color.green, "📅 Created: " ++ humanTimeDiff now repo.CreatedAt⟩]
    else [⟨Color.green, "📅 Created: " ++ format repo.CreatedAt⟩]
  else if field = "updated_at" then [⟨Color.yellow, "🔄 Updated: " ++ format repo.UpdatedAt⟩]
  else if field = "stargazers_count" then
    [⟨Color.magenta, "⭐ Stars: " ++ fmtInt repo.StargazersCount⟩]
  else if field = "forks" then [⟨Color.magenta, "🍴 Forks: " ++ fmtInt repo.Forks⟩]
  else if field = "watchers" then [⟨Color.magenta, "👀 Watchers: " ++ fmtInt repo.Watchers⟩]
  else if field = "size" then [⟨Color.magenta, "📦 Size: " ++ fmtInt repo.Size ++ " KB"⟩]
  else if field = "owner.login" then [⟨Color.cyan, "👤 Owner: " ++ repo.Owner.Login⟩]
  else if field = "license.name" then
    match repo.License with
    | some license => [⟨Color.cyan, "📝 License: " ++ license.Name⟩]
    | none => []
  else [⟨Color.red, "❓ Unknown field: " ++ field⟩]

/-- The function `printRepoInfo` (main.go 126-165): the lines written to
standard output, in order.  `format` is `Time.Format(time.RFC3339)` and `now`
is `time.Now()`. -/
def printRepoInfo (format : Time → String) (now : Time) (repo : Repo) :
    List String → Bool → Bool → List Line
  | [], _, _ => []
  | field :: fields, since, short =>
    printField format now repo field since short ++
      printRepoInfo format now repo fields since short

/-- The lines of text on standard output after the print calls `out`: a
`color.*` call writes its expanded text followed by a newline, so a text with
k line feeds makes k + 1 lines.  Colour escape sequences are left out. -/
def writtenLines : List Line → List String
  | [] => []
  | line :: out => Split line.text '\n' ++ writtenLines out

/-- A record on which the renderer is evaluated. -/
def sampleRepo (license : Option License) : Repo :=
  { Name := "ghpp", FullName := "KiranCNayak/ghpp",
    HTMLURL := "https://github.com/KiranCNayak/ghpp",
    CreatedAt := ⟨2023, 7, 17, 10, 0, 0, 0⟩, UpdatedAt := ⟨2025, 7, 20, 12, 30, 0, 0⟩,
    StargazersCount := 100, Forks := 10, Watchers := 100, Size := 42,
    Owner := ⟨"KiranCNayak"⟩, License := license }

/-! ## Argument validation (main.go 59-74) -/

/-- A run of `main` that ends in `os.Exit`: the message printed just before
and the exit code. -/
structure Failure where
  message : String
  code : Int
  deriving DecidableEq, Repr

/-- What `main` holds when it issues the HTTP request: `owner`, `repo` and
`apiURL` (main.go 73-74). -/
structure Request where
  owner : String
  repo : String
  apiURL : String
  deriving DecidableEq, Repr

/-- The part of `main` that precedes `http.Get` (main.go 61-74).  `args` is
`flag.Args()`, the positional arguments left after flag parsing; the result
is either the exit taken or the request about to be issued. -/
def mainRequest (args : List String) : Except Failure Request :=
  match args with
  | [] =>
    Except.error
      ⟨"Usage: ghpp <owner>/<repo> [--include=\"\"] [--exclude=\"\"] [--since]", 1⟩
  | repoArg :: _ =>
    let parts := Split repoArg '/'
    if parts.length ≠ 2 then
      Except.error ⟨"Invalid repo format. Use <owner>/<repo>", 1⟩
    else
      let owner := parts.getD 0 ""
      let repo := parts.getD 1 ""
      let apiURL := "https://api.github.com/repos/" ++ owner ++ "/" ++ repo
      Except.ok ⟨owner, repo, apiURL⟩

/-! ## Lemmas on maps -/

theorem foldl_append_singleton (l acc : List String) :
    l.foldl (fun result f => result ++ [f]) acc = acc ++ l := by
  induction l generalizing acc with
  | nil => simp
  | cons a l ih => simp [ih]

theorem GoMap.keys_set (m : GoMap) (k : String) (v : Bool) :
    (m.set k v).keys = if k ∈ m.keys then m.keys else m.keys ++ [k] := by
  unfold GoMap.set
  split
  · simp only [GoMap.keys, List.map_map]
    apply List.map_congr_left
    intro p _
    by_cases hp : p.1 = k <;> simp [hp]
  · simp [GoMap.keys]

theorem GoMap.mem_keys_set (m : GoMap) (k : String) (v : Bool) (x : String) :
    x ∈ (m.set k v).keys ↔ x ∈ m.keys ∨ x = k := by
  rw [GoMap.keys_set]
  split
  · constructor
    · exact Or.inl
    · rintro (h | h)
      · exact h
      · subst h; assumption
  · simp

theorem GoMap.nodup_keys_set (m : GoMap) (k : String) (v : Bool) (h : m.keys.Nodup) :
    (m.set k v).keys.Nodup := by
  rw [GoMap.keys_set]
  split
  · exact h
  · rename_i hk
    rw [List.nodup_append]
    refine ⟨h, by simp, ?_⟩
    intro a ha hb
    simp at hb
    subst hb
    exact absurd ha hk

theorem GoMap.keys_delete (m : GoMap) (k : String) :
    (m.delete k).keys = m.keys.filter (fun x => decide (x ≠ k)) := by
  induction m with
  | nil => rfl
  | cons p m ih =>
    simp only [GoMap.delete, GoMap.keys] at ih ⊢
    by_cases hp : p.1 = k <;> simp [List.filter_cons, hp] <;> simpa using ih

theorem GoMap.mem_keys_delete (m : GoMap) (k : String) (x : String) :
    x ∈ (m.delete k).keys ↔ x ∈ m.keys ∧ x ≠ k := by
  rw [GoMap.keys_delete]
  simp

theorem GoMap.nodup_keys_delete (m : GoMap) (k : String) (h : m.keys.Nodup) :
    (m.delete k).keys.Nodup := by
  rw [GoMap.keys_delete]
  exact h.filter _

theorem mem_keys_foldl_set (g : String → String) (l : List String) (m : GoMap) (x : String) :
    x ∈ (l.foldl (fun m f => m.set (g f) true) m).keys ↔ x ∈ m.keys ∨ x ∈ l.map g := by
  induction l generalizing m with
  | nil => simp
  | cons a l ih =>
    simp only [List.foldl_cons, ih, GoMap.mem_keys_set, List.map_cons, List.mem_cons]
    tauto

theorem nodup_keys_foldl_set (g : String → String) (l : List String) (m : GoMap)
    (h : m.keys.Nodup) : (l.foldl (fun m f => m.set (g f) true) m).keys.Nodup := by
  induction l generalizing m with
  | nil => simpa using h
  | cons a l ih => exact ih _ (GoMap.nodup_keys_set m (g a) true h)

theorem mem_keys_foldl_delete (g : String → String) (l : List String) (m : GoMap)
    (x : String) :
    x ∈ (l.foldl (fun m f => m.delete (g f)) m).keys ↔ x ∈ m.keys ∧ x ∉ l.map g := by
  induction l generalizing m with
  | nil => simp
  | cons a l ih =>
    simp only [List.foldl_cons, ih, GoMap.mem_keys_delete, List.map_cons, List.mem_cons]
    tauto

theorem nodup_keys_foldl_delete (g : String → String) (l : List String) (m : GoMap)
    (h : m.keys.Nodup) : (l.foldl (fun m f => m.delete (g f)) m).keys.Nodup := by
  induction l generalizing m with
  | nil => simpa using h
  | cons a l ih => exact ih _ (GoMap.nodup_keys_delete m (g a) h)

theorem buildFieldList_eq_range (range : GoMap → List String)
    (defaults : List String) (incl excl : String) :
    buildFieldList range defaults incl excl = range (fieldSetOf defaults incl excl) := by
  simp only [buildFieldList, fieldSetOf, foldl_append_singleton, List.nil_append]

theorem mem_keys_fieldSetOf (defaults : List String) (incl excl x : String) :
    x ∈ (fieldSetOf defaults incl excl).keys ↔
      (x ∈ defaults ∨ (incl ≠ "" ∧ x ∈ tokens incl)) ∧ ¬ (excl ≠ "" ∧ x ∈ tokens excl) := by
  have h0 : x ∈ (defaults.foldl (fun m f => m.set f true) GoMap.empty).keys ↔ x ∈ defaults := by
    have := mem_keys_foldl_set id defaults GoMap.empty x
    simpa [GoMap.empty, GoMap.keys] using this
  unfold fieldSetOf tokens
  by_cases hi : incl = "" <;> by_cases he : excl = "" <;>
    simp [hi, he, mem_keys_foldl_set TrimSpace, mem_keys_foldl_delete TrimSpace, h0]

theorem nodup_keys_fieldSetOf (defaults : List String) (incl excl : String) :
    (fieldSetOf defaults incl excl).keys.Nodup := by
  have h0 : (defaults.foldl (fun m f => m.set f true) GoMap.empty).keys.Nodup :=
    nodup_keys_foldl_set id defaults GoMap.empty (by simp [GoMap.empty, GoMap.keys])
  have h1 : ((if incl ≠ "" then
      (Split incl ',').foldl (fun m f => m.set (TrimSpace f) true)
        (defaults.foldl (fun m f => m.set f true) GoMap.empty)
      else defaults.foldl (fun m f => m.set f true) GoMap.empty) : GoMap).keys.Nodup := by
    split
    · exact nodup_keys_foldl_set TrimSpace _ _ h0
    · exact h0
  unfold fieldSetOf
  simp only []
  split
  · exact nodup_keys_foldl_delete TrimSpace _ _ h1
  · exact h1

theorem mem_buildFieldList (range : GoMap → List String) (hr : IsRangeOrder range)
    (defaults : List String) (incl excl x : String) :
    x ∈ buildFieldList range defaults incl excl ↔
      (x ∈ defaults ∨ (incl ≠ "" ∧ x ∈ tokens incl)) ∧ ¬ (excl ≠ "" ∧ x ∈ tokens excl) := by
  rw [buildFieldList_eq_range, (hr _).mem_iff, mem_keys_fieldSetOf]

theorem keys_isRangeOrder : IsRangeOrder GoMap.keys :=
  fun _ => List.Perm.refl _

/-! ## Field set resolver -/

/-- C1: for every admissible iteration order, defaults list, include string
and non-empty exclude string, no white-space-trimmed comma-separated token of
the exclude string is an element of the list `buildFieldList` returns, also
when the token is a default or an include token. -/
theorem buildFieldList_excludes (range : GoMap → List String) (hr : IsRangeOrder range)
    (defaults : List String) (incl excl : String) (hE : excl ≠ "")
    (tok : String) (htok : tok ∈ (Split excl ',').map TrimSpace) :
    tok ∉ buildFieldList range defaults incl excl := by
  intro hmem
  rw [mem_buildFieldList range hr] at hmem
  exact hmem.2 ⟨hE, htok⟩

theorem buildFieldList_excludes_witness :
    IsRangeOrder GoMap.keys ∧ " name ,forks" ≠ "" ∧
    "name" ∈ (Split " name ,forks" ',').map TrimSpace ∧
    "name" ∈ defaultFields ∧ "name" ∈ (Split "name, forks" ',').map TrimSpace ∧
    "name" ∉ buildFieldList GoMap.keys defaultFields "name, forks" " name ,forks" :=
  ⟨keys_isRangeOrder, by decide, by decide, by decide, by decide,
    buildFieldList_excludes GoMap.keys keys_isRangeOrder defaultFields "name, forks"
      " name ,forks" (by decide) "name" (by decide)⟩

/-- C2: `buildFieldList` computes defaults + include - exclude: a string is in
the result iff (it is a default, or the include string is non-empty and it is
one of its trimmed tokens) and not (the exclude string is non-empty and it is
one of its trimmed tokens); the empty string is a field id of the result for
the include strings `"forks,,size"` and `","`.  The function is total. -/
theorem buildFieldList_mem_iff (range : GoMap → List String) (hr : IsRangeOrder range) :
    (∀ (defaults : List String) (incl excl x : String),
      x ∈ buildFieldList range defaults incl excl ↔
        (x ∈ defaults ∨ (incl ≠ "" ∧ x ∈ (Split incl ',').map TrimSpace)) ∧
          ¬ (excl ≠ "" ∧ x ∈ (Split excl ',').map TrimSpace)) ∧
    (∀ defaults : List String, "" ∈ buildFieldList range defaults "forks,,size" "") ∧
    (∀ defaults : List String, "" ∈ buildFieldList range defaults "," "") := by
  refine ⟨fun defaults incl excl x => mem_buildFieldList range hr defaults incl excl x, ?_, ?_⟩
  · intro defaults
    rw [mem_buildFieldList range hr]
    exact ⟨Or.inr ⟨by decide, by decide⟩, fun h => h.1 rfl⟩
  · intro defaults
    rw [mem_buildFieldList range hr]
    exact ⟨Or.inr ⟨by decide, by decide⟩, fun h => h.1 rfl⟩

theorem buildFieldList_mem_iff_witness :
    IsRangeOrder GoMap.keys ∧
    buildFieldList GoMap.keys defaultFields "forks,,size" "name" =
      ["full_name", "html_url", "created_at", "updated_at", "stargazers_count",
        "forks", "", "size"] ∧
    ("forks" ∈ buildFieldList GoMap.keys defaultFields "forks,,size" "name" ↔
      ("forks" ∈ defaultFields ∨
        ("forks,,size" ≠ "" ∧ "forks" ∈ (Split "forks,,size" ',').map TrimSpace)) ∧
        ¬ ("name" ≠ "" ∧ "forks" ∈ (Split "name" ',').map TrimSpace)) :=
  ⟨keys_isRangeOrder, by decide,
    (buildFieldList_mem_iff GoMap.keys keys_isRangeOrder).1 defaultFields "forks,,size"
      "name" "forks"⟩

/-- C3: with empty include and exclude strings the result of `buildFieldList`
is exactly the set of the defaults: a string is an element of the result iff
it is an element of the defaults list. -/
theorem buildFieldList_empty_flags (range : GoMap → List String) (hr : IsRangeOrder range)
    (defaults : List String) (x : String) :
    x ∈ buildFieldList range defaults "" "" ↔ x ∈ defaults := by
  rw [mem_buildFieldList range hr]
  simp

theorem buildFieldList_empty_flags_witness :
    IsRangeOrder GoMap.keys ∧
    buildFieldList GoMap.keys ["size", "name", "size"] "" "" = ["size", "name"] ∧
    ("name" ∈ buildFieldList GoMap.keys ["size", "name", "size"] "" "" ↔
      "name" ∈ ["size", "name", "size"]) :=
  ⟨keys_isRangeOrder, by decide,
    buildFieldList_empty_flags GoMap.keys keys_isRangeOrder ["size", "name", "size"] "name"⟩

/-- C4: for every admissible iteration order, defaults list (repeated entries
allowed), include string and exclude string, the list `buildFieldList` returns
has no duplicate identifiers. -/
theorem buildFieldList_nodup (range : GoMap → List String) (hr : IsRangeOrder range)
    (defaults : List String) (incl excl : String) :
    (buildFieldList range defaults incl excl).Nodup := by
  rw [buildFieldList_eq_range, (hr _).nodup_iff]
  exact nodup_keys_fieldSetOf defaults incl excl

theorem buildFieldList_nodup_witness :
    IsRangeOrder GoMap.keys ∧
    buildFieldList GoMap.keys ["name", "size", "name"] "size, forks,forks , name" "" =
      ["name", "size", "forks"] ∧
    (buildFieldList GoMap.keys ["name", "size", "name"] "size, forks,forks , name" "").Nodup :=
  ⟨keys_isRangeOrder, by decide,
    buildFieldList_nodup GoMap.keys keys_isRangeOrder ["name", "size", "name"]
      "size, forks,forks , name" ""⟩

/-! ## Duration formatter -/

/-- C5: for every timestamp whose year, month and day of month equal those of
`now`, `humanTimeDiff` and `humanTimeDiffShort` both return exactly the string
`"today"`, without an `" ago"` suffix. -/
theorem humanTimeDiff_same_date (now t : Time)
    (hy : t.Year = now.Year) (hm : t.Month = now.Month) (hd : t.Day = now.Day) :
    humanTimeDiff now t = "today" ∧ humanTimeDiffShort now t = "today" := by
  simp [humanTimeDiff, humanTimeDiffParts, humanTimeDiffShort, humanTimeDiffShortParts,
    hy, hm, hd]

theorem humanTimeDiff_same_date_witness :
    humanTimeDiff ⟨2024, 2, 29, 23, 59, 59, 0⟩ ⟨2024, 2, 29, 0, 0, 1, 3600⟩ = "today" ∧
    humanTimeDiffShort ⟨2024, 2, 29, 23, 59, 59, 0⟩ ⟨2024, 2, 29, 0, 0, 1, 3600⟩ = "today" :=
  humanTimeDiff_same_date ⟨2024, 2, 29, 23, 59, 59, 0⟩ ⟨2024, 2, 29, 0, 0, 1, 3600⟩
    (by decide) (by decide) (by decide)

/-- C6: when `now.Year - t.Year = 2`, the months are equal and
`now.Day - t.Day = 3` (2 years, 0 months, 3 days, no borrow), `humanTimeDiff`
returns `"2 years 3 days ago"` and `humanTimeDiffShort` returns `"2y 3d ago"`:
the zero months component is left out of both. -/
theorem humanTimeDiff_two_years_three_days (now t : Time)
    (hy : now.Year - t.Year = 2) (hm : now.Month = t.Month) (hd : now.Day - t.Day = 3) :
    humanTimeDiff now t = "2 years 3 days ago" ∧ humanTimeDiffShort now t = "2y 3d ago" := by
  constructor
  · simp only [humanTimeDiff, humanTimeDiffParts, hy, hm, hd, sub_self]
    decide
  · simp only [humanTimeDiffShort, humanTimeDiffShortParts, hy, hm, hd, sub_self]
    decide

theorem humanTimeDiff_two_years_three_days_witness :
    humanTimeDiff ⟨2025, 7, 20, 0, 0, 0, 0⟩ ⟨2023, 7, 17, 0, 0, 0, 0⟩ = "2 years 3 days ago" ∧
    humanTimeDiffShort ⟨2025, 7, 20, 0, 0, 0, 0⟩ ⟨2023, 7, 17, 0, 0, 0, 0⟩ = "2y 3d ago" :=
  humanTimeDiff_two_years_three_days ⟨2025, 7, 20, 0, 0, 0, 0⟩ ⟨2023, 7, 17, 0, 0, 0, 0⟩
    (by decide) (by decide) (by decide)

/-- C7: when `now.Day < t.Day` the day borrow adds the fixed 30: in both
formatters the days value is `now.Day - t.Day + 30` and the months value is
`now.Month - t.Month - 1` before the year borrow (which adds 12 to it and
takes one from the years when it is negative).  For `t` on day 28 and `now`
on day 5 of the following month, in the same year or from December to January
of the next year, the outputs are `"7 days ago"` and `"7d ago"`, whatever the
month. -/
theorem humanTimeDiff_day_borrow :
    (∀ now t : Time, now.Day < t.Day →
      humanTimeDiffParts now t =
        (if now.Month - t.Month - 1 < 0 then
          (now.Year - t.Year - 1, now.Month - t.Month - 1 + 12, now.Day - t.Day + 30)
        else (now.Year - t.Year, now.Month - t.Month - 1, now.Day - t.Day + 30)) ∧
      humanTimeDiffShortParts now t =
        (if now.Month - t.Month - 1 < 0 then
          (now.Year - t.Year - 1, now.Month - t.Month - 1 + 12, now.Day - t.Day + 30)
        else (now.Year - t.Year, now.Month - t.Month - 1, now.Day - t.Day + 30))) ∧
    (∀ now t : Time, t.Day = 28 → now.Day = 5 →
      ((now.Year = t.Year ∧ now.Month = t.Month + 1) ∨
        (now.Year = t.Year + 1 ∧ t.Month = 12 ∧ now.Month = 1)) →
      humanTimeDiff now t = "7 days ago" ∧ humanTimeDiffShort now t = "7d ago") := by
  constructor
  · intro now t h
    have hneg : now.Day - t.Day < 0 := by omega
    constructor
    · simp only [humanTimeDiffParts, hneg, if_true]
      split <;> rfl
    · simp only [humanTimeDiffShortParts, hneg, if_true]
      split <;> rfl
  · intro now t ht hn h
    rcases h with ⟨hy, hm⟩ | ⟨hy, htm, hnm⟩
    · have e1 : now.Year - t.Year = 0 := by omega
      have e2 : now.Month - t.Month = 1 := by omega
      have e3 : now.Day - t.Day = -23 := by omega
      constructor
      · simp only [humanTimeDiff, humanTimeDiffParts, e1, e2, e3]
        decide
      · simp only [humanTimeDiffShort, humanTimeDiffShortParts, e1, e2, e3]
        decide
    · have e1 : now.Year - t.Year = 1 := by omega
      have e2 : now.Month - t.Month = -11 := by omega
      have e3 : now.Day - t.Day = -23 := by omega
      constructor
      · simp only [humanTimeDiff, humanTimeDiffParts, e1, e2, e3]
        decide
      · simp only [humanTimeDiffShort, humanTimeDiffShortParts, e1, e2, e3]
        decide

theorem humanTimeDiff_day_borrow_witness :
    ((5 : Int) < 28 ∧
      humanTimeDiffParts ⟨2024, 3, 5, 0, 0, 0, 0⟩ ⟨2024, 2, 28, 0, 0, 0, 0⟩ = (0, 0, 7) ∧
      humanTimeDiffShortParts ⟨2024, 3, 5, 0, 0, 0, 0⟩ ⟨2024, 2, 28, 0, 0, 0, 0⟩ = (0, 0, 7)) ∧
    (humanTimeDiff ⟨2024, 3, 5, 0, 0, 0, 0⟩ ⟨2024, 2, 28, 0, 0, 0, 0⟩ = "7 days ago" ∧
      humanTimeDiffShort ⟨2024, 3, 5, 0, 0, 0, 0⟩ ⟨2024, 2, 28, 0, 0, 0, 0⟩ = "7d ago") ∧
    (humanTimeDiff ⟨2025, 1, 5, 0, 0, 0, 0⟩ ⟨2024, 12, 28, 0, 0, 0, 0⟩ = "7 days ago" ∧
      humanTimeDiffShort ⟨2025, 1, 5, 0, 0, 0, 0⟩ ⟨2024, 12, 28, 0, 0, 0, 0⟩ = "7d ago") :=
  ⟨⟨by decide,
      humanTimeDiff_day_borrow.1 ⟨2024, 3, 5, 0, 0, 0, 0⟩ ⟨2024, 2, 28, 0, 0, 0, 0⟩ (by decide)⟩,
    humanTimeDiff_day_borrow.2 ⟨2024, 3, 5, 0, 0, 0, 0⟩ ⟨2024, 2, 28, 0, 0, 0, 0⟩ rfl rfl
      (Or.inl ⟨by decide, by decide⟩),
    humanTimeDiff_day_borrow.2 ⟨2025, 1, 5, 0, 0, 0, 0⟩ ⟨2024, 12, 28, 0, 0, 0, 0⟩ rfl rfl
      (Or.inr ⟨by decide, by decide, by decide⟩)⟩

/-- C8: for `t` and `now` with months in 1..12 and days in 1..31 such that
the date (year, month, day) of `now` is lexicographically at or after that of
`t`, the years, months and days values of `humanTimeDiff` and of
`humanTimeDiffShort` after both borrow steps are all non-negative. -/
theorem humanTimeDiff_parts_nonneg (now t : Time)
    (htm : 1 ≤ t.Month ∧ t.Month ≤ 12) (hnm : 1 ≤ now.Month ∧ now.Month ≤ 12)
    (htd : 1 ≤ t.Day ∧ t.Day ≤ 31) (hnd : 1 ≤ now.Day ∧ now.Day ≤ 31)
    (hle : t.Year < now.Year ∨ (t.Year = now.Year ∧
      (t.Month < now.Month ∨ (t.Month = now.Month ∧ t.Day ≤ now.Day)))) :
    (0 ≤ (humanTimeDiffParts now t).1 ∧ 0 ≤ (humanTimeDiffParts now t).2.1 ∧
      0 ≤ (humanTimeDiffParts now t).2.2) ∧
    (0 ≤ (humanTimeDiffShortParts now t).1 ∧ 0 ≤ (humanTimeDiffShortParts now t).2.1 ∧
      0 ≤ (humanTimeDiffShortParts now t).2.2) := by
  simp only [humanTimeDiffParts, humanTimeDiffShortParts]
  split_ifs <;> simp only [] <;> omega

theorem humanTimeDiff_parts_nonneg_witness :
    humanTimeDiffParts ⟨2025, 1, 1, 0, 0, 0, 0⟩ ⟨2024, 12, 31, 0, 0, 0, 0⟩ = (0, 0, 0) ∧
    ((0 ≤ (humanTimeDiffParts ⟨2025, 1, 1, 0, 0, 0, 0⟩ ⟨2024, 12, 31, 0, 0, 0, 0⟩).1 ∧
      0 ≤ (humanTimeDiffParts ⟨2025, 1, 1, 0, 0, 0, 0⟩ ⟨2024, 12, 31, 0, 0, 0, 0⟩).2.1 ∧
      0 ≤ (humanTimeDiffParts ⟨2025, 1, 1, 0, 0, 0, 0⟩ ⟨2024, 12, 31, 0, 0, 0, 0⟩).2.2) ∧
    (0 ≤ (humanTimeDiffShortParts ⟨2025, 1, 1, 0, 0, 0, 0⟩ ⟨2024, 12, 31, 0, 0, 0, 0⟩).1 ∧
      0 ≤ (humanTimeDiffShortParts ⟨2025, 1, 1, 0, 0, 0, 0⟩ ⟨2024, 12, 31, 0, 0, 0, 0⟩).2.1 ∧
      0 ≤ (humanTimeDiffShortParts ⟨2025, 1, 1, 0, 0, 0, 0⟩ ⟨2024, 12, 31, 0, 0, 0, 0⟩).2.2)) :=
  ⟨by decide,
    humanTimeDiff_parts_nonneg ⟨2025, 1, 1, 0, 0, 0, 0⟩ ⟨2024, 12, 31, 0, 0, 0, 0⟩
      (by decide) (by decide) (by decide) (by decide) (Or.inl (by decide))⟩

/-! ## Field renderer -/

theorem printRepoInfo_append (format : Time → String) (now : Time) (repo : Repo)
    (xs ys : List String) (since short : Bool) :
    printRepoInfo format now repo (xs ++ ys) since short =
      printRepoInfo format now repo xs since short ++
        printRepoInfo format now repo ys since short := by
  induction xs with
  | nil => simp [printRepoInfo]
  | cons x xs ih => simp [printRepoInfo, ih]

theorem printRepoInfo_singleton (format : Time → String) (now : Time) (repo : Repo)
    (f : String) (since short : Bool) :
    printRepoInfo format now repo [f] since short =
      printField format now repo f since short := by
  simp [printRepoInfo]

theorem mem_printRepoInfo_of_mem (format : Time → String) (now : Time) (repo : Repo)
    (fields : List String) (since short : Bool) (f : String) (line : Line)
    (hf : f ∈ fields) (hl : line ∈ printField format now repo f since short) :
    line ∈ printRepoInfo format now repo fields since short := by
  induction fields with
  | nil => cases hf
  | cons g fields ih =>
    simp only [printRepoInfo, List.mem_append]
    rcases List.mem_cons.1 hf with h | h
    · subst h
      exact Or.inl hl
    · exact Or.inr (ih h)

theorem printField_length (format : Time → String) (now : Time) (repo : Repo)
    (f : String) (since short : Bool)
    (h : ¬ (f = "license.name" ∧ repo.License = none)) :
    (printField format now repo f since short).length = 1 := by
  unfold printField
  by_cases h1 : f = "name"
  · rw [if_pos h1]; rfl
  rw [if_neg h1]
  by_cases h2 : f = "full_name"
  · rw [if_pos h2]; rfl
  rw [if_neg h2]
  by_cases h3 : f = "html_url"
  · rw [if_pos h3]; rfl
  rw [if_neg h3]
  by_cases h4 : f = "created_at"
  · rw [if_pos h4]
    cases since <;> cases short <;> rfl
  rw [if_neg h4]
  by_cases h5 : f = "updated_at"
  · rw [if_pos h5]; rfl
  rw [if_neg h5]
  by_cases h6 : f = "stargazers_count"
  · rw [if_pos h6]; rfl
  rw [if_neg h6]
  by_cases h7 : f = "forks"
  · rw [if_pos h7]; rfl
  rw [if_neg h7]
  by_cases h8 : f = "watchers"
  · rw [if_pos h8]; rfl
  rw [if_neg h8]
  by_cases h9 : f = "size"
  · rw [if_pos h9]; rfl
  rw [if_neg h9]
  by_cases h10 : f = "owner.login"
  · rw [if_pos h10]; rfl
  rw [if_neg h10]
  by_cases h11 : f = "license.name"
  · rw [if_pos h11]
    cases hl : repo.License with
    | none => exact absurd ⟨h11, hl⟩ h
    | some license => rfl
  rw [if_neg h11]
  rfl

theorem reverse_isRangeOrder : IsRangeOrder (fun m => m.keys.reverse) :=
  fun m => List.reverse_perm m.keys

/-! ## Field renderer, continued -/

/-- C11: the `created_at` line follows the two flags: with `since = false`
`printRepoInfo` prints `"📅 Created: "` followed by the RFC-3339 timestamp,
whatever `short` is; with `since = true` and `short = false` it prints the
output of `humanTimeDiff` on `CreatedAt`; with both flags `true` it prints the
output of `humanTimeDiffShort` on `CreatedAt`. -/
theorem printRepoInfo_created_at (format : Time → String) (now : Time) (repo : Repo) :
    (∀ short : Bool, printRepoInfo format now repo ["created_at"] false short =
      [⟨Color.green, "📅 Created: " ++ format repo.CreatedAt⟩]) ∧
    printRepoInfo format now repo ["created_at"] true false =
      [⟨Color.green, "📅 Created: " ++ humanTimeDiff now repo.CreatedAt⟩] ∧
    printRepoInfo format now repo ["created_at"] true true =
      [⟨Color.green, "📅 Created: " ++ humanTimeDiffShort now repo.CreatedAt⟩] := by
  refine ⟨fun short => ?_, ?_, ?_⟩ <;>
  · rw [printRepoInfo_singleton]
    unfold printField
    rw [if_neg (by decide), if_neg (by decide), if_neg (by decide), if_pos (by decide)]
    simp

/-- C12: the `updated_at` line is never relative: for every record and all
four combinations of the two flags `printRepoInfo` prints the same single
line for the field `"updated_at"`, the yellow line carrying the RFC-3339
timestamp of `UpdatedAt`. -/
theorem printRepoInfo_updated_at (format : Time → String) (now : Time) (repo : Repo)
    (since short : Bool) :
    printRepoInfo format now repo ["updated_at"] since short =
      [⟨Color.yellow, "🔄 Updated: " ++ format repo.UpdatedAt⟩] := by
  rw [printRepoInfo_singleton]
  unfold printField
  rw [if_neg (by decide), if_neg (by decide), if_neg (by decide), if_neg (by decide),
    if_pos (by decide)]

/-- C13: end to end with `--include=forks`: for every admissible iteration
order, every record with `StargazersCount = 100` and `Forks = 10` and both
flags, the lines `printRepoInfo` prints for
`buildFieldList defaultFields "forks" ""` include the line `"🍴 Forks: 10"`
and the line `"⭐ Stars: 100"`. -/
theorem printRepoInfo_include_forks (range : GoMap → List String) (hr : IsRangeOrder range)
    (format : Time → String) (now : Time) (repo : Repo) (since short : Bool)
    (hstars : repo.StargazersCount = 100) (hforks : repo.Forks = 10) :
    (⟨Color.magenta, "🍴 Forks: 10"⟩ : Line) ∈
      printRepoInfo format now repo (buildFieldList range defaultFields "forks" "")
        since short ∧
    (⟨Color.magenta, "⭐ Stars: 100"⟩ : Line) ∈
      printRepoInfo format now repo (buildFieldList range defaultFields "forks" "")
        since short := by
  constructor
  · refine mem_printRepoInfo_of_mem format now repo _ since short "forks" _ ?_ ?_
    · rw [mem_buildFieldList range hr]
      exact ⟨Or.inr ⟨by decide, by decide⟩, fun h => h.1 rfl⟩
    · unfold printField
      rw [if_neg (by decide), if_neg (by decide), if_neg (by decide), if_neg (by decide),
        if_neg (by decide), if_neg (by decide), if_pos (by decide), hforks]
      decide
  · refine mem_printRepoInfo_of_mem format now repo _ since short "stargazers_count" _ ?_ ?_
    · rw [mem_buildFieldList range hr]
      exact ⟨Or.inl (by decide), fun h => h.1 rfl⟩
    · unfold printField
      rw [if_neg (by decide), if_neg (by decide), if_neg (by decide), if_neg (by decide),
        if_neg (by decide), if_pos (by decide), hstars]
      decide

theorem printRepoInfo_include_forks_witness :
    IsRangeOrder (fun m => m.keys.reverse) ∧
    (sampleRepo none).StargazersCount = 100 ∧ (sampleRepo none).Forks = 10 ∧
    buildFieldList (fun m => m.keys.reverse) defaultFields "forks" "" =
      ["forks", "stargazers_count", "updated_at", "created_at", "html_url", "full_name",
        "name"] ∧
    ((⟨Color.magenta, "🍴 Forks: 10"⟩ : Line) ∈
      printRepoInfo (fun _ => "") ⟨2025, 7, 20, 0, 0, 0, 0⟩ (sampleRepo none)
        (buildFieldList (fun m => m.keys.reverse) defaultFields "forks" "") true false ∧
    (⟨Color.magenta, "⭐ Stars: 100"⟩ : Line) ∈
      printRepoInfo (fun _ => "") ⟨2025, 7, 20, 0, 0, 0, 0⟩ (sampleRepo none)
        (buildFieldList (fun m => m.keys.reverse) defaultFields "forks" "") true false) :=
  ⟨reverse_isRangeOrder, rfl, rfl, by decide,
    printRepoInfo_include_forks (fun m => m.keys.reverse) reverse_isRangeOrder (fun _ => "")
      ⟨2025, 7, 20, 0, 0, 0, 0⟩ (sampleRepo none) true false rfl rfl⟩

/-! ## Argument validation -/

theorem splitChars_ne_nil (sep : Char) (cs : List Char) : splitChars sep cs ≠ [] := by
  induction cs with
  | nil => simp [splitChars]
  | cons c cs ih =>
    unfold splitChars
    split
    · simp
    · split <;> simp

theorem splitChars_length (sep : Char) (cs : List Char) :
    (splitChars sep cs).length = cs.count sep + 1 := by
  induction cs with
  | nil => simp [splitChars]
  | cons c cs ih =>
    unfold splitChars
    by_cases hc : c = sep
    · rw [if_pos hc, hc, List.count_cons_self, List.length_cons, ih]
    · rw [if_neg hc, List.count_cons_of_ne (Ne.symm hc)]
      cases hs : splitChars sep cs with
      | nil => exact absurd hs (splitChars_ne_nil sep cs)
      | cons piece pieces =>
        rw [hs] at ih
        simpa using ih

theorem Split_length (s : String) (sep : Char) :
    (Split s sep).length = s.data.count sep + 1 := by
  simp [Split, splitChars_length]

theorem eq_pair_of_length_two (l : List String) (h : l.length = 2) :
    l = [l.getD 0 "", l.getD 1 ""] := by
  match l, h with
  | [a, b], _ => rfl

/-- C14: for every first positional argument `a`, the validation of `main`
exits (with the "Invalid repo format" message and code 1, before any request)
iff splitting `a` on `/` does not give exactly two segments, that is iff `a`
does not contain exactly one `/`; an argument without `/` or with two or more
is rejected; an accepted argument gives `owner` the first segment and `repo`
the second. -/
theorem mainRequest_validation (a : String) (rest : List String) :
    ((∃ e : Failure, mainRequest (a :: rest) = Except.error e) ↔
      (Split a '/').length ≠ 2) ∧
    ((Split a '/').length ≠ 2 →
      mainRequest (a :: rest) =
        Except.error ⟨"Invalid repo format. Use <owner>/<repo>", 1⟩) ∧
    ((Split a '/').length = 2 ↔ a.data.count '/' = 1) ∧
    (a.data.count '/' = 0 ∨ 2 ≤ a.data.count '/' →
      ∃ e : Failure, e.code = 1 ∧ mainRequest (a :: rest) = Except.error e) ∧
    (∀ r : Request, mainRequest (a :: rest) = Except.ok r →
      Split a '/' = [r.owner, r.repo]) := by
  have hbad : (Split a '/').length ≠ 2 →
      mainRequest (a :: rest) =
        Except.error ⟨"Invalid repo format. Use <owner>/<repo>", 1⟩ := by
    intro h
    simp only [mainRequest]
    rw [if_pos h]
  have hgood : (Split a '/').length = 2 →
      mainRequest (a :: rest) =
        Except.ok ⟨(Split a '/').getD 0 "", (Split a '/').getD 1 "",
          "https://api.github.com/repos/" ++ (Split a '/').getD 0 "" ++ "/" ++
            (Split a '/').getD 1 ""⟩ := by
    intro h
    simp only [mainRequest]
    rw [if_neg (not_not.2 h)]
  have hcount : (Split a '/').length = 2 ↔ a.data.count '/' = 1 := by
    rw [Split_length]
    omega
  refine ⟨⟨?_, fun h => ⟨_, hbad h⟩⟩, hbad, hcount, ?_, ?_⟩
  · rintro ⟨e, he⟩ h
    rw [hgood h] at he
    cases he
  · intro h
    refine ⟨_, ?_, hbad (fun h2 => ?_)⟩
    · rfl
    · have := hcount.1 h2
      omega
  · intro r hr
    by_cases h : (Split a '/').length = 2
    · rw [hgood h] at hr
      cases hr
      exact eq_pair_of_length_two _ h
    · rw [hbad h] at hr
      cases hr

theorem mainRequest_validation_witness :
    mainRequest ["KiranCNayak/ghpp"] =
      Except.ok ⟨"KiranCNayak", "ghpp", "https://api.github.com/repos/KiranCNayak/ghpp"⟩ ∧
    Split "KiranCNayak/ghpp" '/' = ["KiranCNayak", "ghpp"] ∧
    (Split "ghpp" '/').length ≠ 2 ∧
    mainRequest ["ghpp", "x/y"] =
      Except.error ⟨"Invalid repo format. Use <owner>/<repo>", 1⟩ ∧
    (∃ e : Failure, e.code = 1 ∧ mainRequest ["a/b/c"] = Except.error e) :=
  ⟨rfl,
    (mainRequest_validation "KiranCNayak/ghpp" []).2.2.2.2
      ⟨"KiranCNayak", "ghpp", "https://api.github.com/repos/KiranCNayak/ghpp"⟩ rfl,
    by decide,
    (mainRequest_validation "ghpp" ["x/y"]).2.1 (by decide),
    (mainRequest_validation "a/b/c" []).2.2.2.1 (Or.inr (by decide))⟩

/-! ## Duration formatter, continued -/

/-- C18: for `t` on day 31 of a month and `now` on day 1 of the following
month (same year, or December to January of the next year) the day borrow
gives days = 1 - 31 + 30 = 0, months = 0 and years = 0, and both
`humanTimeDiff` and `humanTimeDiffShort` return `"today"`, although the date
of `t` is strictly before the date of `now`. -/
theorem humanTimeDiff_today_on_earlier_date (now t : Time)
    (ht : t.Day = 31) (hn : now.Day = 1)
    (h : (now.Year = t.Year ∧ now.Month = t.Month + 1) ∨
      (now.Year = t.Year + 1 ∧ t.Month = 12 ∧ now.Month = 1)) :
    humanTimeDiffParts now t = (0, 0, 0) ∧ humanTimeDiffShortParts now t = (0, 0, 0) ∧
    humanTimeDiff now t = "today" ∧ humanTimeDiffShort now t = "today" ∧
    (t.Year < now.Year ∨ (t.Year = now.Year ∧ t.Month < now.Month)) := by
  have e3 : now.Day - t.Day = -30 := by omega
  rcases h with ⟨hy, hm⟩ | ⟨hy, htm, hnm⟩
  · have e1 : now.Year - t.Year = 0 := by omega
    have e2 : now.Month - t.Month = 1 := by omega
    refine ⟨?_, ?_, ?_, ?_, Or.inr ⟨hy.symm, by omega⟩⟩
    · simp only [humanTimeDiffParts, e1, e2, e3]
      decide
    · simp only [humanTimeDiffShortParts, e1, e2, e3]
      decide
    · simp only [humanTimeDiff, humanTimeDiffParts, e1, e2, e3]
      decide
    · simp only [humanTimeDiffShort, humanTimeDiffShortParts, e1, e2, e3]
      decide
  · have e1 : now.Year - t.Year = 1 := by omega
    have e2 : now.Month - t.Month = -11 := by omega
    refine ⟨?_, ?_, ?_, ?_, Or.inl (by omega)⟩
    · simp only [humanTimeDiffParts, e1, e2, e3]
      decide
    · simp only [humanTimeDiffShortParts, e1, e2, e3]
      decide
    · simp only [humanTimeDiff, humanTimeDiffParts, e1, e2, e3]
      decide
    · simp only [humanTimeDiffShort, humanTimeDiffShortParts, e1, e2, e3]
      decide

theorem humanTimeDiff_today_on_earlier_date_witness :
    (humanTimeDiffParts ⟨2024, 4, 1, 0, 0, 0, 0⟩ ⟨2024, 3, 31, 0, 0, 0, 0⟩ = (0, 0, 0) ∧
      humanTimeDiffShortParts ⟨2024, 4, 1, 0, 0, 0, 0⟩ ⟨2024, 3, 31, 0, 0, 0, 0⟩ = (0, 0, 0) ∧
      humanTimeDiff ⟨2024, 4, 1, 0, 0, 0, 0⟩ ⟨2024, 3, 31, 0, 0, 0, 0⟩ = "today" ∧
      humanTimeDiffShort ⟨2024, 4, 1, 0, 0, 0, 0⟩ ⟨2024, 3, 31, 0, 0, 0, 0⟩ = "today" ∧
      ((2024 : Int) < 2024 ∨ ((2024 : Int) = 2024 ∧ (3 : Int) < 4))) ∧
    humanTimeDiff ⟨2025, 1, 1, 0, 0, 0, 0⟩ ⟨2024, 12, 31, 0, 0, 0, 0⟩ = "today" :=
  ⟨humanTimeDiff_today_on_earlier_date ⟨2024, 4, 1, 0, 0, 0, 0⟩ ⟨2024, 3, 31, 0, 0, 0, 0⟩
      rfl rfl (Or.inl ⟨by decide, by decide⟩),
    (humanTimeDiff_today_on_earlier_date ⟨2025, 1, 1, 0, 0, 0, 0⟩ ⟨2024, 12, 31, 0, 0, 0, 0⟩
      rfl rfl (Or.inr ⟨by decide, by decide, by decide⟩)).2.2.1⟩

/-- C19: for `t` and `now` in either order, with months in 1..12 and days of
month in 1..31, the months value after both borrow steps is between 0 and 11
and the days value is between 0 and 30, in `humanTimeDiff` and in
`humanTimeDiffShort`. -/
theorem humanTimeDiff_parts_in_range (now t : Time)
    (htm : 1 ≤ t.Month ∧ t.Month ≤ 12) (hnm : 1 ≤ now.Month ∧ now.Month ≤ 12)
    (htd : 1 ≤ t.Day ∧ t.Day ≤ 31) (hnd : 1 ≤ now.Day ∧ now.Day ≤ 31) :
    (0 ≤ (humanTimeDiffParts now t).2.1 ∧ (humanTimeDiffParts now t).2.1 ≤ 11 ∧
      0 ≤ (humanTimeDiffParts now t).2.2 ∧ (humanTimeDiffParts now t).2.2 ≤ 30) ∧
    (0 ≤ (humanTimeDiffShortParts now t).2.1 ∧ (humanTimeDiffShortParts now t).2.1 ≤ 11 ∧
      0 ≤ (humanTimeDiffShortParts now t).2.2 ∧ (humanTimeDiffShortParts now t).2.2 ≤ 30) := by
  simp only [humanTimeDiffParts, humanTimeDiffShortParts]
  split_ifs <;> simp only [] <;> omega

theorem humanTimeDiff_parts_in_range_witness :
    humanTimeDiffParts ⟨2024, 1, 1, 0, 0, 0, 0⟩ ⟨2025, 12, 31, 0, 0, 0, 0⟩ = (-2, 0, 0) ∧
    humanTimeDiffParts ⟨2024, 12, 31, 0, 0, 0, 0⟩ ⟨2024, 1, 1, 0, 0, 0, 0⟩ = (0, 11, 30) ∧
    ((0 ≤ (humanTimeDiffParts ⟨2024, 12, 31, 0, 0, 0, 0⟩ ⟨2024, 1, 1, 0, 0, 0, 0⟩).2.1 ∧
      (humanTimeDiffParts ⟨2024, 12, 31, 0, 0, 0, 0⟩ ⟨2024, 1, 1, 0, 0, 0, 0⟩).2.1 ≤ 11 ∧
      0 ≤ (humanTimeDiffParts ⟨2024, 12, 31, 0, 0, 0, 0⟩ ⟨2024, 1, 1, 0, 0, 0, 0⟩).2.2 ∧
      (humanTimeDiffParts ⟨2024, 12, 31, 0, 0, 0, 0⟩ ⟨2024, 1, 1, 0, 0, 0, 0⟩).2.2 ≤ 30) ∧
    (0 ≤ (humanTimeDiffShortParts ⟨2024, 12, 31, 0, 0, 0, 0⟩ ⟨2024, 1, 1, 0, 0, 0, 0⟩).2.1 ∧
      (humanTimeDiffShortParts ⟨2024, 12, 31, 0, 0, 0, 0⟩ ⟨2024, 1, 1, 0, 0, 0, 0⟩).2.1 ≤ 11 ∧
      0 ≤ (humanTimeDiffShortParts ⟨2024, 12, 31, 0, 0, 0, 0⟩ ⟨2024, 1, 1, 0, 0, 0, 0⟩).2.2 ∧
      (humanTimeDiffShortParts ⟨2024, 12, 31, 0, 0, 0, 0⟩ ⟨2024, 1, 1, 0, 0, 0, 0⟩).2.2 ≤
        30)) :=
  ⟨by decide, by decide,
    humanTimeDiff_parts_in_range ⟨2024, 12, 31, 0, 0, 0, 0⟩ ⟨2024, 1, 1, 0, 0, 0, 0⟩
      (by decide) (by decide) (by decide) (by decide)⟩

/-! ## Rendering of the components -/

theorem append_ago_ne_today (s : String) : s ++ " ago" ≠ "today" := by
  intro h
  have h1 := congrArg String.data h
  have h2 := congrArg List.getLast? h1
  simp at h2

theorem humanTimeDiff_of_parts (now t : Time) (y m d : Int)
    (hp : humanTimeDiffParts now t = (y, m, d)) :
    humanTimeDiff now t =
      if (([(y, fmtInt y ++ " year" ++ plural y), (m, fmtInt m ++ " month" ++ plural m),
            (d, fmtInt d ++ " day" ++ plural d)].filter
          (fun c => decide (0 < c.1))).map Prod.snd) = [] then "today"
      else Join (([(y, fmtInt y ++ " year" ++ plural y),
            (m, fmtInt m ++ " month" ++ plural m),
            (d, fmtInt d ++ " day" ++ plural d)].filter
          (fun c => decide (0 < c.1))).map Prod.snd) " " ++ " ago" := by
  unfold humanTimeDiff
  rw [hp]
  by_cases hy : 0 < y <;> by_cases hm : 0 < m <;> by_cases hd : 0 < d <;>
    simp [hy, hm, hd, List.filter]

theorem humanTimeDiffShort_of_parts (now t : Time) (y m d : Int)
    (hp : humanTimeDiffShortParts now t = (y, m, d)) :
    humanTimeDiffShort now t =
      if (([(y, fmtInt y ++ "y"), (m, fmtInt m ++ "m"), (d, fmtInt d ++ "d")].filter
          (fun c => decide (0 < c.1))).map Prod.snd) = [] then "today"
      else Join (([(y, fmtInt y ++ "y"), (m, fmtInt m ++ "m"), (d, fmtInt d ++ "d")].filter
          (fun c => decide (0 < c.1))).map Prod.snd) " " ++ " ago" := by
  unfold humanTimeDiffShort
  rw [hp]
  by_cases hy : 0 < y <;> by_cases hm : 0 < m <;> by_cases hd : 0 < d <;>
    simp [hy, hm, hd, List.filter]

theorem filter_pos_ne_nil {α : Type} (y m d : Int) (a b c : α)
    (h : 0 < y ∨ 0 < m ∨ 0 < d) :
    (([(y, a), (m, b), (d, c)].filter (fun c => decide (0 < c.1))).map Prod.snd) ≠ [] := by
  by_cases hy : 0 < y <;> by_cases hm : 0 < m <;> by_cases hd : 0 < d <;>
    simp [hy, hm, hd, List.filter]
  rcases h with h | h | h <;> contradiction

theorem year_unit (n : Int) :
    fmtInt n ++ " year" ++ plural n = fmtInt n ++ (if n = 1 then " year" else " years") := by
  unfold plural
  split
  · simp
  · rw [String.append_assoc]; rfl

theorem month_unit (n : Int) :
    fmtInt n ++ " month" ++ plural n =
      fmtInt n ++ (if n = 1 then " month" else " months") := by
  unfold plural
  split
  · simp
  · rw [String.append_assoc]; rfl

theorem day_unit (n : Int) :
    fmtInt n ++ " day" ++ plural n = fmtInt n ++ (if n = 1 then " day" else " days") := by
  unfold plural
  split
  · simp
  · rw [String.append_assoc]; rfl

/-- C15: when the values of years, months, days after the borrow steps are
`y`, `m`, `d` and at least one is positive, the output of `humanTimeDiff`
(of `humanTimeDiffShort`) is the rendered components with value > 0, in the
order years, months, days, joined by single spaces, followed by `" ago"`; a
component that is 0 or negative is left out; in the short form a component is
the number directly followed by `y`, `m` or `d`, and the values 2, 5, 0 give
`"2y 5m ago"`. -/
theorem humanTimeDiff_components (now t : Time) :
    (∀ y m d : Int, humanTimeDiffParts now t = (y, m, d) → 0 < y ∨ 0 < m ∨ 0 < d →
      humanTimeDiff now t =
        Join (([(y, fmtInt y ++ " year" ++ plural y),
            (m, fmtInt m ++ " month" ++ plural m),
            (d, fmtInt d ++ " day" ++ plural d)].filter
          (fun c => decide (0 < c.1))).map Prod.snd) " " ++ " ago") ∧
    (∀ y m d : Int, humanTimeDiffShortParts now t = (y, m, d) → 0 < y ∨ 0 < m ∨ 0 < d →
      humanTimeDiffShort now t =
        Join (([(y, fmtInt y ++ "y"), (m, fmtInt m ++ "m"), (d, fmtInt d ++ "d")].filter
          (fun c => decide (0 < c.1))).map Prod.snd) " " ++ " ago") ∧
    (∀ y m d : Int, humanTimeDiffParts now t = (y, m, d) → 0 < y → 0 < m → 0 < d →
      humanTimeDiff now t =
        fmtInt y ++ " year" ++ plural y ++ " " ++ (fmtInt m ++ " month" ++ plural m) ++ " " ++
          (fmtInt d ++ " day" ++ plural d) ++ " ago") ∧
    (∀ y m d : Int, humanTimeDiffShortParts now t = (y, m, d) → 0 < y → 0 < m → 0 < d →
      humanTimeDiffShort now t =
        fmtInt y ++ "y" ++ " " ++ (fmtInt m ++ "m") ++ " " ++ (fmtInt d ++ "d") ++ " ago") ∧
    (humanTimeDiffShortParts now t = (2, 5, 0) → humanTimeDiffShort now t = "2y 5m ago") := by
  refine ⟨?_, ?_, ?_, ?_, ?_⟩
  · intro y m d hp hpos
    rw [humanTimeDiff_of_parts now t y m d hp, if_neg (filter_pos_ne_nil y m d _ _ _ hpos)]
  · intro y m d hp hpos
    rw [humanTimeDiffShort_of_parts now t y m d hp,
      if_neg (filter_pos_ne_nil y m d _ _ _ hpos)]
  · intro y m d hp hy hm hd
    rw [humanTimeDiff_of_parts now t y m d hp]
    simp [hy, hm, hd, List.filter, Join, String.append_assoc]
  · intro y m d hp hy hm hd
    rw [humanTimeDiffShort_of_parts now t y m d hp]
    simp [hy, hm, hd, List.filter, Join, String.append_assoc]
  · intro hp
    rw [humanTimeDiffShort_of_parts now t 2 5 0 hp]
    decide

theorem humanTimeDiff_components_witness :
    humanTimeDiffParts ⟨2025, 7, 20, 0, 0, 0, 0⟩ ⟨2023, 2, 17, 0, 0, 0, 0⟩ = (2, 5, 3) ∧
    humanTimeDiff ⟨2025, 7, 20, 0, 0, 0, 0⟩ ⟨2023, 2, 17, 0, 0, 0, 0⟩ =
      "2 years 5 months 3 days ago" ∧
    humanTimeDiffShort ⟨2025, 7, 20, 0, 0, 0, 0⟩ ⟨2023, 2, 17, 0, 0, 0, 0⟩ = "2y 5m 3d ago" ∧
    humanTimeDiffShortParts ⟨2025, 7, 17, 0, 0, 0, 0⟩ ⟨2023, 2, 17, 0, 0, 0, 0⟩ = (2, 5, 0) ∧
    humanTimeDiffShort ⟨2025, 7, 17, 0, 0, 0, 0⟩ ⟨2023, 2, 17, 0, 0, 0, 0⟩ = "2y 5m ago" ∧
    humanTimeDiffParts ⟨2023, 1, 17, 0, 0, 0, 0⟩ ⟨2025, 1, 10, 0, 0, 0, 0⟩ = (-2, 0, 7) ∧
    humanTimeDiff ⟨2023, 1, 17, 0, 0, 0, 0⟩ ⟨2025, 1, 10, 0, 0, 0, 0⟩ = "7 days ago" :=
  ⟨by decide,
    (humanTimeDiff_components ⟨2025, 7, 20, 0, 0, 0, 0⟩ ⟨2023, 2, 17, 0, 0, 0, 0⟩).2.2.1
      2 5 3 (by decide) (by decide) (by decide) (by decide),
    (humanTimeDiff_components ⟨2025, 7, 20, 0, 0, 0, 0⟩ ⟨2023, 2, 17, 0, 0, 0, 0⟩).2.2.2.1
      2 5 3 (by decide) (by decide) (by decide) (by decide),
    by decide,
    (humanTimeDiff_components ⟨2025, 7, 17, 0, 0, 0, 0⟩ ⟨2023, 2, 17, 0, 0, 0, 0⟩).2.2.2.2
      (by decide),
    by decide,
    Eq.trans
      ((humanTimeDiff_components ⟨2023, 1, 17, 0, 0, 0, 0⟩ ⟨2025, 1, 10, 0, 0, 0, 0⟩).1
        (-2) 0 7 (by decide) (Or.inr (Or.inr (by decide))))
      (by decide)⟩

/-- C16: `plural n` is the empty string iff `n = 1` and is `"s"` otherwise;
so in the output of `humanTimeDiff` every printed component has the unit word
`year`, `month`, `day` when its value is 1 and `years`, `months`, `days` when
its value is another positive number: `"1 year ago"` but `"2 years ago"`. -/
theorem plural_units :
    (∀ n : Int, plural n = "" ↔ n = 1) ∧
    (∀ n : Int, n ≠ 1 → plural n = "s") ∧
    (∀ (now t : Time) (y m d : Int), humanTimeDiffParts now t = (y, m, d) →
      0 < y ∨ 0 < m ∨ 0 < d →
      humanTimeDiff now t =
        Join (([(y, fmtInt y ++ (if y = 1 then " year" else " years")),
            (m, fmtInt m ++ (if m = 1 then " month" else " months")),
            (d, fmtInt d ++ (if d = 1 then " day" else " days"))].filter
          (fun c => decide (0 < c.1))).map Prod.snd) " " ++ " ago") ∧
    (∀ now t : Time, humanTimeDiffParts now t = (1, 0, 0) →
      humanTimeDiff now t = "1 year ago") ∧
    (∀ now t : Time, humanTimeDiffParts now t = (2, 0, 0) →
      humanTimeDiff now t = "2 years ago") := by
  refine ⟨?_, ?_, ?_, ?_, ?_⟩
  · intro n
    unfold plural
    by_cases h : n = 1
    · simp [h]
    · rw [if_neg h]
      exact ⟨fun h2 => absurd h2 (by decide), fun h2 => absurd h2 h⟩
  · intro n h
    unfold plural
    rw [if_neg h]
  · intro now t y m d hp hpos
    rw [humanTimeDiff_of_parts now t y m d hp,
      if_neg (filter_pos_ne_nil y m d _ _ _ hpos), year_unit, month_unit, day_unit]
  · intro now t hp
    rw [humanTimeDiff_of_parts now t 1 0 0 hp]
    decide
  · intro now t hp
    rw [humanTimeDiff_of_parts now t 2 0 0 hp]
    decide

theorem plural_units_witness :
    humanTimeDiffParts ⟨2025, 7, 20, 0, 0, 0, 0⟩ ⟨2024, 7, 20, 0, 0, 0, 0⟩ = (1, 0, 0) ∧
    humanTimeDiff ⟨2025, 7, 20, 0, 0, 0, 0⟩ ⟨2024, 7, 20, 0, 0, 0, 0⟩ = "1 year ago" ∧
    humanTimeDiff ⟨2025, 7, 20, 0, 0, 0, 0⟩ ⟨2023, 7, 20, 0, 0, 0, 0⟩ = "2 years ago" ∧
    plural 2 = "s" ∧
    humanTimeDiff ⟨2025, 7, 20, 0, 0, 0, 0⟩ ⟨2024, 5, 19, 0, 0, 0, 0⟩ =
      "1 year 2 months 1 day ago" :=
  ⟨by decide,
    plural_units.2.2.2.1 ⟨2025, 7, 20, 0, 0, 0, 0⟩ ⟨2024, 7, 20, 0, 0, 0, 0⟩ (by decide),
    plural_units.2.2.2.2 ⟨2025, 7, 20, 0, 0, 0, 0⟩ ⟨2023, 7, 20, 0, 0, 0, 0⟩ (by decide),
    plural_units.2.1 2 (by decide),
    Eq.trans
      (plural_units.2.2.1 ⟨2025, 7, 20, 0, 0, 0, 0⟩ ⟨2024, 5, 19, 0, 0, 0, 0⟩ 1 2 1
        (by decide) (Or.inl (by decide)))
      (by decide)⟩

/-- C20: the long and the short formatter are the same computation up to the
rendering of the units: for every `t` and `now` they compute the same years,
months, days; there is one list of positive components (value, long unit,
short unit), in the order years, months, days, from which both outputs are
made, the long one rendering a component as `<n> <unit>` with the plural `s`,
the short one as `<n>` followed by `y`, `m` or `d`; and one returns `"today"`
iff the other does. -/
theorem humanTimeDiff_short_same_computation (now t : Time) :
    humanTimeDiffParts now t = humanTimeDiffShortParts now t ∧
    (humanTimeDiff now t = "today" ↔ humanTimeDiffShort now t = "today") ∧
    (∃ cs : List (Int × String × String),
      cs = [((humanTimeDiffParts now t).1, " year", "y"),
          ((humanTimeDiffParts now t).2.1, " month", "m"),
          ((humanTimeDiffParts now t).2.2, " day", "d")].filter
            (fun c => decide (0 < c.1)) ∧
      humanTimeDiff now t =
        (if cs = [] then "today"
         else Join (cs.map (fun c => fmtInt c.1 ++ c.2.1 ++ plural c.1)) " " ++ " ago") ∧
      humanTimeDiffShort now t =
        (if cs = [] then "today"
         else Join (cs.map (fun c => fmtInt c.1 ++ c.2.2)) " " ++ " ago")) := by
  have hparts : humanTimeDiffParts now t = humanTimeDiffShortParts now t := rfl
  have hform : ∃ cs : List (Int × String × String),
      cs = [((humanTimeDiffParts now t).1, " year", "y"),
          ((humanTimeDiffParts now t).2.1, " month", "m"),
          ((humanTimeDiffParts now t).2.2, " day", "d")].filter
            (fun c => decide (0 < c.1)) ∧
      humanTimeDiff now t =
        (if cs = [] then "today"
         else Join (cs.map (fun c => fmtInt c.1 ++ c.2.1 ++ plural c.1)) " " ++ " ago") ∧
      humanTimeDiffShort now t =
        (if cs = [] then "today"
         else Join (cs.map (fun c => fmtInt c.1 ++ c.2.2)) " " ++ " ago") := by
    refine ⟨_, rfl, ?_, ?_⟩
    · unfold humanTimeDiff
      generalize humanTimeDiffParts now t = p
      obtain ⟨y, m, d⟩ := p
      by_cases hy : 0 < y <;> by_cases hm : 0 < m <;> by_cases hd : 0 < d <;>
        simp [hy, hm, hd, List.filter]
    · unfold humanTimeDiffShort
      rw [← hparts]
      generalize humanTimeDiffParts now t = p
      obtain ⟨y, m, d⟩ := p
      by_cases hy : 0 < y <;> by_cases hm : 0 < m <;> by_cases hd : 0 < d <;>
        simp [hy, hm, hd, List.filter]
  refine ⟨hparts, ?_, hform⟩
  obtain ⟨cs, -, hl, hs⟩ := hform
  rw [hl, hs]
  by_cases hc : cs = []
  · simp [hc]
  · rw [if_neg hc, if_neg hc]
    exact ⟨fun h => absurd h (append_ago_ne_today _), fun h => absurd h (append_ago_ne_today _)⟩

/-! ## Lines written to standard output -/

theorem splitChars_of_not_mem (sep : Char) (cs : List Char) (h : sep ∉ cs) :
    splitChars sep cs = [cs] := by
  induction cs with
  | nil => rfl
  | cons c cs ih =>
    have hc : c ≠ sep := fun e => h (by simp [e])
    have hcs : sep ∉ cs := fun e => h (List.mem_cons_of_mem c e)
    unfold splitChars
    rw [if_neg hc, ih hcs]

theorem Split_of_not_mem (s : String) (sep : Char) (h : sep ∉ s.data) :
    Split s sep = [s] := by
  simp [Split, splitChars_of_not_mem sep s.data h]

theorem writtenLines_append (xs ys : List Line) :
    writtenLines (xs ++ ys) = writtenLines xs ++ writtenLines ys := by
  induction xs with
  | nil => rfl
  | cons x xs ih => simp [writtenLines, ih]

theorem writtenLines_singleton_length (line : Line) :
    (writtenLines [line]).length = line.text.data.count '\n' + 1 := by
  simp [writtenLines, Split_length]

theorem writtenLines_length_of_no_line_feed (out : List Line)
    (h : ∀ line ∈ out, '\n' ∉ line.text.data) :
    (writtenLines out).length = out.length := by
  induction out with
  | nil => rfl
  | cons x out ih =>
    have hx : '\n' ∉ x.text.data := h x (List.mem_cons_self x out)
    have hout : ∀ line ∈ out, '\n' ∉ line.text.data :=
      fun line hl => h line (List.mem_cons_of_mem x hl)
    simp [writtenLines, Split_of_not_mem x.text '\n' hx, ih hout]

theorem printRepoInfo_unknown_call (format : Time → String) (now : Time) (repo : Repo)
    (since short : Bool) (f : String)
    (hf : f ∉ ["name", "full_name", "html_url", "created_at", "updated_at",
      "stargazers_count", "forks", "watchers", "size", "owner.login", "license.name"]) :
    printRepoInfo format now repo [f] since short =
      [⟨Color.red, "❓ Unknown field: " ++ f⟩] := by
  simp only [List.mem_cons, List.mem_singleton, List.not_mem_nil, or_false, not_or] at hf
  obtain ⟨h1, h2, h3, h4, h5, h6, h7, h8, h9, h10, h11⟩ := hf
  simp only [printRepoInfo, printField, List.append_nil]
  rw [if_neg h1, if_neg h2, if_neg h3, if_neg h4, if_neg h5, if_neg h6, if_neg h7,
    if_neg h8, if_neg h9, if_neg h10, if_neg h11]

/-- C10, as stated, fails: a field id outside the eleven known ids that holds
a line feed, such as `"a\nb"` (which `buildFieldList` returns for
`--include` equal to it), makes `printRepoInfo` write two lines, not one. -/
theorem printRepoInfo_unknown_line_feed :
    "a\nb" ∉ ["name", "full_name", "html_url", "created_at", "updated_at",
      "stargazers_count", "forks", "watchers", "size", "owner.login", "license.name"] ∧
    buildFieldList GoMap.keys [] "a\nb" "" = ["a\nb"] ∧
    writtenLines (printRepoInfo (fun _ => "") ⟨2025, 7, 20, 0, 0, 0, 0⟩ (sampleRepo none)
      ["a\nb"] false false) = ["❓ Unknown field: a", "b"] ∧
    (writtenLines (printRepoInfo (fun _ => "") ⟨2025, 7, 20, 0, 0, 0, 0⟩ (sampleRepo none)
      ["a\nb"] false false)).length ≠ 1 := by
  refine ⟨by decide, by decide, ?_, ?_⟩
  · rw [printRepoInfo_unknown_call _ _ _ _ _ _ (by decide)]
    decide
  · rw [printRepoInfo_unknown_call _ _ _ _ _ _ (by decide)]
    decide

/-- C10, amended: for every string `f` that is none of the eleven field ids
with a case of their own, every record and both flags, `printRepoInfo` on
`[f]` makes exactly one print call, the red one with the text
`"❓ Unknown field: "` followed by `f` (never dropped, never a failure); that
call writes one line more than `f` has line feeds, so for every such `f`
without a line feed exactly one line is written, whose text is
`"❓ Unknown field: "` followed by `f`; for `f = "foo"` the line contains
`"Unknown field: foo"`. -/
theorem printRepoInfo_unknown (format : Time → String) (now : Time) (repo : Repo)
    (since short : Bool) :
    (∀ f : String,
      f ∉ ["name", "full_name", "html_url", "created_at", "updated_at", "stargazers_count",
        "forks", "watchers", "size", "owner.login", "license.name"] →
      printRepoInfo format now repo [f] since short =
          [⟨Color.red, "❓ Unknown field: " ++ f⟩] ∧
        (writtenLines (printRepoInfo format now repo [f] since short)).length =
          f.data.count '\n' + 1 ∧
        ('\n' ∉ f.data →
          writtenLines (printRepoInfo format now repo [f] since short) =
            ["❓ Unknown field: " ++ f])) ∧
    (∃ line : String,
      writtenLines (printRepoInfo format now repo ["foo"] since short) = [line] ∧
      ∃ pre post : String, line = pre ++ "Unknown field: foo" ++ post) := by
  have key : ∀ f : String,
      f ∉ ["name", "full_name", "html_url", "created_at", "updated_at", "stargazers_count",
        "forks", "watchers", "size", "owner.login", "license.name"] →
      '\n' ∉ f.data →
      writtenLines (printRepoInfo format now repo [f] since short) =
        ["❓ Unknown field: " ++ f] := by
    intro f hf hn
    rw [printRepoInfo_unknown_call format now repo since short f hf]
    have hp : '\n' ∉ ("❓ Unknown field: " ++ f).data := by
      rw [String.data_append, List.mem_append]
      rintro (h | h)
      · revert h; decide
      · exact hn h
    simp [writtenLines, Split_of_not_mem _ '\n' hp]
  refine ⟨fun f hf => ⟨printRepoInfo_unknown_call format now repo since short f hf, ?_,
    key f hf⟩, "❓ Unknown field: " ++ "foo", key "foo" (by decide) (by decide), "❓ ", "", ?_⟩
  · rw [printRepoInfo_unknown_call format now repo since short f hf,
      writtenLines_singleton_length]
    show ("❓ Unknown field: " ++ f).data.count '\n' + 1 = _
    rw [String.data_append, List.count_append]
    have : "❓ Unknown field: ".data.count '\n' = 0 := by decide
    omega
  · decide

theorem printRepoInfo_unknown_witness :
    "foo" ∉ ["name", "full_name", "html_url", "created_at", "updated_at", "stargazers_count",
        "forks", "watchers", "size", "owner.login", "license.name"] ∧
    '\n' ∉ "foo".data ∧
    writtenLines (printRepoInfo (fun _ => "") ⟨2025, 7, 20, 0, 0, 0, 0⟩ (sampleRepo none)
      ["foo"] false false) = ["❓ Unknown field: foo"] :=
  ⟨by decide, by decide,
    ((printRepoInfo_unknown (fun _ => "") ⟨2025, 7, 20, 0, 0, 0, 0⟩ (sampleRepo none)
      false false).1 "foo" (by decide)).2.2 (by decide)⟩

/-- C17, as stated, fails: for a record with a license present and the field
list `["name", "a\nb"]` of length 2, `printRepoInfo` writes 3 lines, and the
field `"a\nb"` alone writes 2 lines, not one. -/
theorem printRepoInfo_per_field_line_feed :
    (sampleRepo (some ⟨"MIT License"⟩)).License ≠ none ∧
    writtenLines (printRepoInfo (fun _ => "") ⟨2025, 7, 20, 0, 0, 0, 0⟩
      (sampleRepo (some ⟨"MIT License"⟩)) ["name", "a\nb"] false false) =
      ["📦 Name: ghpp", "❓ Unknown field: a", "b"] ∧
    (writtenLines (printRepoInfo (fun _ => "") ⟨2025, 7, 20, 0, 0, 0, 0⟩
      (sampleRepo (some ⟨"MIT License"⟩)) ["name", "a\nb"] false false)).length ≠
      ["name", "a\nb"].length ∧
    (writtenLines (printRepoInfo (fun _ => "") ⟨2025, 7, 20, 0, 0, 0, 0⟩
      (sampleRepo (some ⟨"MIT License"⟩)) ["a\nb"] false false)).length = 2 := by
  have h : printRepoInfo (fun _ => "") ⟨2025, 7, 20, 0, 0, 0, 0⟩
      (sampleRepo (some ⟨"MIT License"⟩)) ["name", "a\nb"] false false =
      [⟨Color.cyan, "📦 Name: ghpp"⟩, ⟨Color.red, "❓ Unknown field: a\nb"⟩] := by
    decide
  have h2 : printRepoInfo (fun _ => "") ⟨2025, 7, 20, 0, 0, 0, 0⟩
      (sampleRepo (some ⟨"MIT License"⟩)) ["a\nb"] false false =
      [⟨Color.red, "❓ Unknown field: a\nb"⟩] := by
    decide
  rw [h, h2]
  exact ⟨by decide, by decide, by decide, by decide⟩

/-- C17, amended: rendering is per field and in list order: the print calls
made, and the lines written, for `xs ++ ys` are those for `xs` followed by
those for `ys`; every field id other than `"license.name"` with an absent
license makes exactly one print call, which writes one line more than its
text has line feeds; so for a record with a license present the number of
print calls equals the length of the field list, and so does the number of
written lines whenever no printed text holds a line feed. -/
theorem printRepoInfo_per_field (format : Time → String) (now : Time) (repo : Repo)
    (since short : Bool) :
    (∀ xs ys : List String,
      printRepoInfo format now repo (xs ++ ys) since short =
          printRepoInfo format now repo xs since short ++
            printRepoInfo format now repo ys since short ∧
        writtenLines (printRepoInfo format now repo (xs ++ ys) since short) =
          writtenLines (printRepoInfo format now repo xs since short) ++
            writtenLines (printRepoInfo format now repo ys since short)) ∧
    (∀ f : String, ¬ (f = "license.name" ∧ repo.License = none) →
      ∃ line : Line, printRepoInfo format now repo [f] since short = [line] ∧
        (writtenLines (printRepoInfo format now repo [f] since short)).length =
          line.text.data.count '\n' + 1 ∧
        ('\n' ∉ line.text.data →
          writtenLines (printRepoInfo format now repo [f] since short) = [line.text])) ∧
    (repo.License ≠ none → ∀ fields : List String,
      (printRepoInfo format now repo fields since short).length = fields.length ∧
        ((∀ line ∈ printRepoInfo format now repo fields since short,
            '\n' ∉ line.text.data) →
          (writtenLines (printRepoInfo format now repo fields since short)).length =
            fields.length)) := by
  have hlen : repo.License ≠ none → ∀ fields : List String,
      (printRepoInfo format now repo fields since short).length = fields.length := by
    intro hlic fields
    induction fields with
    | nil => rfl
    | cons f fields ih =>
      simp only [printRepoInfo, List.length_append, List.length_cons, ih]
      rw [printField_length format now repo f since short (fun h => hlic h.2)]
      omega
  refine ⟨fun xs ys => ⟨printRepoInfo_append format now repo xs ys since short, ?_⟩, ?_, ?_⟩
  · rw [printRepoInfo_append, writtenLines_append]
  · intro f hf
    have h1 := printField_length format now repo f since short hf
    rw [← printRepoInfo_singleton] at h1
    obtain ⟨line, hline⟩ := List.length_eq_one.1 h1
    refine ⟨line, hline, ?_, ?_⟩
    · rw [hline, writtenLines_singleton_length]
    · intro hn
      rw [hline]
      simp [writtenLines, Split_of_not_mem line.text '\n' hn]
  · intro hlic fields
    refine ⟨hlen hlic fields, fun hn => ?_⟩
    rw [writtenLines_length_of_no_line_feed _ hn, hlen hlic fields]

theorem printRepoInfo_per_field_witness :
    (∃ line : Line,
      printRepoInfo (fun _ => "") ⟨2025, 7, 20, 0, 0, 0, 0⟩ (sampleRepo none)
        ["size"] true true = [line] ∧
      (writtenLines (printRepoInfo (fun _ => "") ⟨2025, 7, 20, 0, 0, 0, 0⟩ (sampleRepo none)
        ["size"] true true)).length = line.text.data.count '\n' + 1 ∧
      ('\n' ∉ line.text.data →
        writtenLines (printRepoInfo (fun _ => "") ⟨2025, 7, 20, 0, 0, 0, 0⟩ (sampleRepo none)
          ["size"] true true) = [line.text])) ∧
    writtenLines (printRepoInfo (fun _ => "") ⟨2025, 7, 20, 0, 0, 0, 0⟩
        (sampleRepo (some ⟨"MIT License"⟩))
        ["license.name", "foo", "name", "license.name"] true true) =
      ["📝 License: MIT License", "❓ Unknown field: foo", "📦 Name: ghpp",
        "📝 License: MIT License"] ∧
    (writtenLines (printRepoInfo (fun _ => "") ⟨2025, 7, 20, 0, 0, 0, 0⟩
        (sampleRepo (some ⟨"MIT License"⟩))
        ["license.name", "foo", "name", "license.name"] true true)).length =
      ["license.name", "foo", "name", "license.name"].length :=
  ⟨(printRepoInfo_per_field (fun _ => "") ⟨2025, 7, 20, 0, 0, 0, 0⟩ (sampleRepo none)
      true true).2.1 "size" (by decide),
    by decide,
    ((printRepoInfo_per_field (fun _ => "") ⟨2025, 7, 20, 0, 0, 0, 0⟩
      (sampleRepo (some ⟨"MIT License"⟩)) true true).2.2 (by decide)
      ["license.name", "foo", "name", "license.name"]).2 (by decide)⟩

end Ghpp
